import Mathlib

/-!
Shallow embedding of the trusted call gateway in
`src/cosmwasm/packages/wasmi-runtime/src/exports.rs` of the SecretNetwork
enclave runtime, and proofs about its entry points
(`ecall_init`, `ecall_handle`, `ecall_query`, `ecall_allocate`,
`recover_buffer`).

External collaborators that are not part of the gateway source
(the OOM handler `oom_handler::register_oom_handler` /
`oom_handler::restore_safety_buffer`, the pointer validators
`validate_mut_ptr` / `validate_const_ptr`, the interpreter
`crate::wasm::init` / `handle` / `query`, and the outcome of
`panic::catch_unwind` around the interpreter call) are modelled as
oracle inputs to each call: every branch the gateway source takes on
their results is represented, and the theorems quantify over all of
their possible outcomes.  Machine pointers are modelled as naturals,
with `0` standing for the null pointer; byte vectors are lists of
naturals.
-/

namespace Gateway

/-- Error kinds of `enclave_ffi_types::EnclaveError` that the gateway
manipulates; all remaining variants of the FFI enum (interpreter
pass-through errors) are collapsed into the opaque `Other`. -/
inductive EnclaveError
  | FailedFunctionCall
  | OutOfMemory
  | Panic
  | Other (code : Nat)
deriving DecidableEq, Repr

/-- Tagged result of a call, the common shape of
`InitResult` / `HandleResult` / `QueryResult`: `Success` with an opaque
payload, or `Failure` with an error kind. -/
inductive CallResult
  | Success (payload : Nat)
  | Failure (err : EnclaveError)
deriving DecidableEq, Repr

/-- Modelled from the spec: `result_init_success_to_initresult` lives in
`results.rs`, which is not under `src/`; per the spec the interpreter
result is converted into the call kind's tagged result type, and any
interpreter error is passed through as `Failure`. -/
def result_init_success_to_initresult (r : Except EnclaveError Nat) : CallResult :=
  match r with
  | .ok payload => .Success payload
  | .error e => .Failure e

/-- Modelled from the spec: `result_handle_success_to_handleresult` lives
in `results.rs`, which is not under `src/`; same conversion as for init. -/
def result_handle_success_to_handleresult (r : Except EnclaveError Nat) : CallResult :=
  match r with
  | .ok payload => .Success payload
  | .error e => .Failure e

/-- Modelled from the spec: `result_query_success_to_queryresult` lives in
`results.rs`, which is not under `src/`; same conversion as for init. -/
def result_query_success_to_queryresult (r : Except EnclaveError Nat) : CallResult :=
  match r with
  | .ok payload => .Success payload
  | .error e => .Failure e

instance : DecidableEq (Except EnclaveError Nat) := fun a b =>
  match a, b with
  | .ok x, .ok y => decidable_of_iff (x = y) (by simp)
  | .ok _, .error _ => isFalse (by simp)
  | .error _, .ok _ => isFalse (by simp)
  | .error x, .error y => decidable_of_iff (x = y) (by simp)

/-- Outcome of the fault-contained execution step
(`panic::catch_unwind` around the `crate::wasm` call): either the
closure completes, carrying the interpreter result and the gas value the
closure wrote back through `used_gas`, or the closure aborts
(`catch_unwind` returns `Err`), carrying whether the OOM flag
(`oom_handler::get_then_clear_oom_happened`) was found set afterwards.
On an abort the closure never reaches its write-back of `used_gas`,
because the only write is after the interpreter call returns. -/
inductive ExecOutcome
  | completes (wasmResult : Except EnclaveError Nat) (gasWritten : Nat)
  | aborts (oomFlagged : Bool)
deriving DecidableEq, Repr

/-- Oracle inputs of one `ecall_init` or `ecall_handle` call: the gas
limit, the value stored at the host gas location before the call, the
result of `register_oom_handler`, the outcome of each pointer validation
in source order (`used_gas` writable, then `env`, `msg`, `contract`,
`sig_info` readable), the outcome of the fault-contained execution step,
and the result of `restore_safety_buffer`.  `none` in `armResult` /
`restoreResult` means the OOM-handler operation succeeded. -/
structure CallInput where
  gasLimit : Nat
  gasBefore : Nat
  armResult : Option EnclaveError
  gasPtrValid : Bool
  envValid : Bool
  msgValid : Bool
  contractValid : Bool
  sigInfoValid : Bool
  execOutcome : ExecOutcome
  restoreResult : Option EnclaveError
deriving DecidableEq, Repr

/-- Oracle inputs of one `ecall_query` call: as for init/handle but the
source validates only the `msg` and `contract` regions. -/
structure QueryInput where
  gasLimit : Nat
  gasBefore : Nat
  armResult : Option EnclaveError
  gasPtrValid : Bool
  msgValid : Bool
  contractValid : Bool
  execOutcome : ExecOutcome
  restoreResult : Option EnclaveError
deriving DecidableEq, Repr

/-- Observable outcome of one entry-point call: the tagged result
returned to the host, the final value of the host gas location
(`gasBefore` when nothing was written), whether the fault-contained
execution step (hence the interpreter) was entered, and whether
`restore_safety_buffer` was invoked. -/
structure CallOutput where
  result : CallResult
  gasFinal : Nat
  interpInvoked : Bool
  restoreInvoked : Bool
deriving DecidableEq, Repr

/-- Embedding of `ecall_init` (exports.rs lines 103-182): register the
OOM handler (failure returns that error); validate `used_gas`, `env`,
`msg`, `contract`, `sig_info` in order (first failure returns
`Failure FailedFunctionCall` immediately); run the interpreter under
`catch_unwind`; call `restore_safety_buffer` (failure returns that
error); on a completed closure return its result, on an abort write
`gas_limit / 2` to the gas location and classify via the OOM flag. -/
def ecall_init (inp : CallInput) : CallOutput :=
  match inp.armResult with
  | some err => ⟨.Failure err, inp.gasBefore, false, false⟩
  | none =>
    if inp.gasPtrValid = false then
      ⟨result_init_success_to_initresult (.error .FailedFunctionCall), inp.gasBefore, false, false⟩
    else if inp.envValid = false then
      ⟨result_init_success_to_initresult (.error .FailedFunctionCall), inp.gasBefore, false, false⟩
    else if inp.msgValid = false then
      ⟨result_init_success_to_initresult (.error .FailedFunctionCall), inp.gasBefore, false, false⟩
    else if inp.contractValid = false then
      ⟨result_init_success_to_initresult (.error .FailedFunctionCall), inp.gasBefore, false, false⟩
    else if inp.sigInfoValid = false then
      ⟨result_init_success_to_initresult (.error .FailedFunctionCall), inp.gasBefore, false, false⟩
    else
      let gasAfterExec :=
        match inp.execOutcome with
        | .completes _ g => g
        | .aborts _ => inp.gasBefore
      match inp.restoreResult with
      | some err => ⟨.Failure err, gasAfterExec, true, true⟩
      | none =>
        match inp.execOutcome with
        | .completes r _ => ⟨result_init_success_to_initresult r, gasAfterExec, true, true⟩
        | .aborts oomFlagged =>
          if oomFlagged then
            ⟨.Failure .OutOfMemory, inp.gasLimit / 2, true, true⟩
          else
            ⟨.Failure .Panic, inp.gasLimit / 2, true, true⟩

/-- Embedding of `ecall_handle` (exports.rs lines 187-266); identical
control flow to `ecall_init`, calling `crate::wasm::handle` and the
handle result converter instead. -/
def ecall_handle (inp : CallInput) : CallOutput :=
  match inp.armResult with
  | some err => ⟨.Failure err, inp.gasBefore, false, false⟩
  | none =>
    if inp.gasPtrValid = false then
      ⟨result_handle_success_to_handleresult (.error .FailedFunctionCall), inp.gasBefore, false, false⟩
    else if inp.envValid = false then
      ⟨result_handle_success_to_handleresult (.error .FailedFunctionCall), inp.gasBefore, false, false⟩
    else if inp.msgValid = false then
      ⟨result_handle_success_to_handleresult (.error .FailedFunctionCall), inp.gasBefore, false, false⟩
    else if inp.contractValid = false then
      ⟨result_handle_success_to_handleresult (.error .FailedFunctionCall), inp.gasBefore, false, false⟩
    else if inp.sigInfoValid = false then
      ⟨result_handle_success_to_handleresult (.error .FailedFunctionCall), inp.gasBefore, false, false⟩
    else
      let gasAfterExec :=
        match inp.execOutcome with
        | .completes _ g => g
        | .aborts _ => inp.gasBefore
      match inp.restoreResult with
      | some err => ⟨.Failure err, gasAfterExec, true, true⟩
      | none =>
        match inp.execOutcome with
        | .completes r _ => ⟨result_handle_success_to_handleresult r, gasAfterExec, true, true⟩
        | .aborts oomFlagged =>
          if oomFlagged then
            ⟨.Failure .OutOfMemory, inp.gasLimit / 2, true, true⟩
          else
            ⟨.Failure .Panic, inp.gasLimit / 2, true, true⟩

/-- Embedding of `ecall_query` (exports.rs lines 271-328): as for init
but only the `used_gas`, `msg` and `contract` regions are validated, and
`crate::wasm::query` is invoked. -/
def ecall_query (inp : QueryInput) : CallOutput :=
  match inp.armResult with
  | some err => ⟨.Failure err, inp.gasBefore, false, false⟩
  | none =>
    if inp.gasPtrValid = false then
      ⟨result_query_success_to_queryresult (.error .FailedFunctionCall), inp.gasBefore, false, false⟩
    else if inp.msgValid = false then
      ⟨result_query_success_to_queryresult (.error .FailedFunctionCall), inp.gasBefore, false, false⟩
    else if inp.contractValid = false then
      ⟨result_query_success_to_queryresult (.error .FailedFunctionCall), inp.gasBefore, false, false⟩
    else
      let gasAfterExec :=
        match inp.execOutcome with
        | .completes _ g => g
        | .aborts _ => inp.gasBefore
      match inp.restoreResult with
      | some err => ⟨.Failure err, gasAfterExec, true, true⟩
      | none =>
        match inp.execOutcome with
        | .completes r _ => ⟨result_query_success_to_queryresult r, gasAfterExec, true, true⟩
        | .aborts oomFlagged =>
          if oomFlagged then
            ⟨.Failure .OutOfMemory, inp.gasLimit / 2, true, true⟩
          else
            ⟨.Failure .Panic, inp.gasLimit / 2, true, true⟩

/-- Embedding of `ecall_health_check` (exports.rs lines 333-335). -/
def ecall_health_check : CallResult := .Success 0

/-- Counterpart of Rust `Iterator::position`: index of the first element
satisfying the predicate, or `none`. -/
def position (p : Nat → Bool) : List Nat → Option Nat
  | [] => none
  | a :: l => if p a then some 0 else (position p l).map (· + 1)

/-- Counterpart of Rust `Vec::swap_remove i`: replace the element at
index `i` by the last element, then drop the last element (when `i` is
the last index this is just a pop).  Only used with `i` in bounds. -/
def swapRemove (l : List Nat) (i : Nat) : List Nat :=
  (l.set i (l.getLast?.getD 0)).dropLast

/-- State of the buffer registry machinery: `stack` embeds the
`ECALL_ALLOCATE_STACK` vector of registered `EnclaveBuffer` pointers,
`heap` associates each live enclave allocation's pointer with the bytes
stored there (the `Box<Vec<u8>>` created by `ecall_allocate` and freed by
`Box::from_raw` in `recover_buffer`), and `nextPtr` is the address the
allocator hands out next, modelling heap-pointer freshness: a new
allocation is non-null and distinct from every live pointer. -/
structure BufState where
  stack : List Nat
  heap : List (Nat × List Nat)
  nextPtr : Nat
deriving DecidableEq, Repr

/-- Oracle inputs of one `ecall_allocate` call: the result of
`register_oom_handler`, the outcome of `validate_const_ptr` on the
source region, whether the fault-contained copy-and-register closure
aborts (allocation failure under `catch_unwind`), and the result of
`restore_safety_buffer`. -/
structure AllocInput where
  armResult : Option EnclaveError
  srcValid : Bool
  allocAborts : Bool
  restoreResult : Option EnclaveError
deriving DecidableEq, Repr

/-- Embedding of `ecall_allocate` (exports.rs lines 33-71): register the
OOM handler (failure returns the default, null, handle); validate the
source region (failure returns the default handle); under
`catch_unwind`, copy the bytes into a fresh heap allocation and push its
pointer onto `ECALL_ALLOCATE_STACK`; call `restore_safety_buffer`
(failure returns the default handle, although a completed closure has
already registered the buffer); finally return the fresh handle, or the
default handle if the closure aborted. -/
def ecall_allocate (inp : AllocInput) (bytes : List Nat) (st : BufState) :
    Nat × BufState :=
  match inp.armResult with
  | some _ => (0, st)
  | none =>
    if inp.srcValid = false then (0, st)
    else
      let (panicked, handle, st1) :=
        if inp.allocAborts then (true, 0, st)
        else
          (false, st.nextPtr,
            { stack := st.stack ++ [st.nextPtr],
              heap := (st.nextPtr, bytes) :: st.heap,
              nextPtr := st.nextPtr + 1 })
      match inp.restoreResult with
      | some _ => (0, st1)
      | none => if panicked then (0, st1) else (handle, st1)

/-- Embedding of `recover_buffer` (exports.rs lines 76-98): a null
handle returns `None` at once, leaving everything untouched; otherwise
search `ECALL_ALLOCATE_STACK` from the end for the pointer
(`iter().rev().position(..)`), return `None` if absent; if found at
index `len - index_from_the_end - 1`, `swap_remove` that entry, then
rebuild the `Box` from the raw pointer (read the bytes stored at the
handle's address and free the allocation) and return them.  The
`getD []` covers the state, unreachable from gateway operations, where a
registered pointer has no live allocation; there the source would read
freed memory. -/
def recover_buffer (ptr : Nat) (st : BufState) :
    Option (List Nat) × BufState :=
  if ptr = 0 then (none, st)
  else
    match position (fun q => q == ptr) st.stack.reverse with
    | none => (none, st)
    | some idxFromEnd =>
      let index := st.stack.length - idxFromEnd - 1
      (some ((st.heap.lookup ptr).getD []),
        { st with
          stack := swapRemove st.stack index,
          heap := st.heap.eraseP (fun e => e.1 == ptr) })

/-- Concrete call where arming succeeds and the gas-pointer validation
fails, the interpreter outcome and restore outcome being irrelevant
because they are never reached. -/
def invalidGasPtrInput : CallInput :=
  ⟨10, 7, none, false, true, true, true, true, .completes (.ok 1) 3, none⟩

/-- Concrete call where arming succeeds and the message-region
validation fails. -/
def invalidMsgInput : CallInput :=
  ⟨10, 7, none, true, true, false, true, true, .completes (.ok 1) 3, none⟩

/-- Concrete query where arming succeeds and the message-region
validation fails. -/
def invalidMsgQueryInput : QueryInput :=
  ⟨10, 7, none, true, false, true, .completes (.ok 1) 3, none⟩

/-- Concrete call where `register_oom_handler` fails with `OutOfMemory`. -/
def armFailInput : CallInput :=
  ⟨10, 7, some .OutOfMemory, true, true, true, true, true, .completes (.ok 1) 3, none⟩

/-- Concrete call where the execution step aborts without the OOM flag
and `restore_safety_buffer` then fails. -/
def abortRestoreFailInput : CallInput :=
  ⟨1000, 7, none, true, true, true, true, true, .aborts false, some .OutOfMemory⟩

/-- Concrete call where the execution step aborts with the OOM flag set
and restoration succeeds. -/
def oomAbortInput : CallInput :=
  ⟨1000, 7, none, true, true, true, true, true, .aborts true, none⟩

/-- Concrete query where the execution step aborts with the OOM flag set
and restoration succeeds. -/
def oomAbortQueryInput : QueryInput :=
  ⟨1000, 7, none, true, true, true, .aborts true, none⟩

/-- Concrete call where the interpreter computes a success but
`restore_safety_buffer` fails afterwards. -/
def successRestoreFailInput : CallInput :=
  ⟨1000, 7, none, true, true, true, true, true, .completes (.ok 42) 5, some .OutOfMemory⟩

/-- Concrete allocation whose OOM-handler operations and validation all
succeed. -/
def allocOkInput : AllocInput := ⟨none, true, false, none⟩

/-- Concrete allocation where everything succeeds except the final
`restore_safety_buffer`. -/
def allocRestoreFailInput : AllocInput := ⟨none, true, false, some .OutOfMemory⟩

/-- Buffer-registry state with no live buffers. -/
def emptyBufState : BufState := ⟨[], [], 1⟩

/-- Buffer-registry state with three live buffers. -/
def sampleBufState : BufState := ⟨[3, 5, 7], [(3, [1]), (5, [2]), (7, [4])], 9⟩

/-- Buffer-registry state whose stack holds the pointer `3` twice, to
exercise the last-match removal policy. -/
def dupBufState : BufState := ⟨[3, 5, 3, 7], [(3, [1])], 9⟩

theorem position_eq_none_iff {p : Nat → Bool} {l : List Nat} :
    position p l = none ↔ ∀ x ∈ l, p x = false := by
  induction l with
  | nil => simp [position]
  | cons a t ih =>
    by_cases h : p a
    · simp [position, h]
    · simp [position, h, ih]

theorem position_spec {p : Nat → Bool} {l : List Nat} {k : Nat}
    (h : position p l = some k) :
    ∃ x, l[k]? = some x ∧ p x = true ∧
      ∀ j y, j < k → l[j]? = some y → p y = false := by
  induction l generalizing k with
  | nil => simp [position] at h
  | cons a t ih =>
    by_cases ha : p a
    · simp [position, ha] at h
      subst h
      exact ⟨a, by simp, ha, fun j y hj _ => absurd hj (Nat.not_lt_zero j)⟩
    · simp [position, ha] at h
      obtain ⟨m, hm, rfl⟩ := h
      obtain ⟨x, hx, hpx, hlt⟩ := ih hm
      refine ⟨x, by simpa using hx, hpx, ?_⟩
      intro j y hj hy
      match j with
      | 0 =>
        simp at hy
        subst hy
        exact eq_false_of_ne_true ha
      | j + 1 =>
        exact hlt j y (by omega) (by simpa using hy)

theorem position_reverse_last {p : Nat → Bool} {l : List Nat} {k : Nat}
    (h : position p l.reverse = some k) :
    k < l.length ∧
      ∃ x, l[l.length - k - 1]? = some x ∧ p x = true ∧
        ∀ j y, l.length - k - 1 < j → l[j]? = some y → p y = false := by
  obtain ⟨x, hx, hpx, hlt⟩ := position_spec h
  have hk : k < l.length := by
    have := List.getElem?_eq_some_iff.1 hx
    simpa using this.1
  refine ⟨hk, x, ?_, hpx, ?_⟩
  · rw [List.getElem?_reverse (by simpa using hk)] at hx
    have : l.length - 1 - k = l.length - k - 1 := by omega
    rwa [this] at hx
  · intro j y hj hy
    have hjlen : j < l.length := by
      have := List.getElem?_eq_some_iff.1 hy
      exact this.1
    have hrev : l.reverse[l.length - 1 - j]? = l[j]? := by
      rw [List.getElem?_reverse (by simpa using (by omega : l.length - 1 - j < l.length))]
      have : l.length - 1 - (l.length - 1 - j) = j := by omega
      rw [this]
    exact hlt (l.length - 1 - j) y (by omega) (hrev.trans hy)

theorem swapRemove_perm (l : List Nat) (i : Nat) (x : Nat) (h : l[i]? = some x) :
    List.Perm (x :: swapRemove l i) l := by
  induction l generalizing i with
  | nil => simp at h
  | cons a t ih =>
    match i, t with
    | 0, [] =>
      simp at h
      subst h
      simp [swapRemove]
    | 0, b :: t =>
      simp at h
      subst h
      have hne : (b :: t) ≠ [] := List.cons_ne_nil b t
      have hz : (b :: t).getLast?.getD 0 = (b :: t).getLast hne := by
        rw [List.getLast?_eq_getLast (b :: t) hne]
        rfl
      have hstep : swapRemove (a :: b :: t) 0 =
          (b :: t).getLast hne :: (b :: t).dropLast := by
        simp [swapRemove, hz]
      rw [hstep]
      refine List.Perm.cons a ?_
      have hp1 : List.Perm ((b :: t).getLast hne :: (b :: t).dropLast)
          ((b :: t).dropLast ++ [(b :: t).getLast hne]) :=
        (List.perm_append_singleton _ _).symm
      have hp2 : (b :: t).dropLast ++ [(b :: t).getLast hne] = b :: t :=
        List.dropLast_concat_getLast hne
      exact hp1.trans (by rw [hp2])
    | i + 1, [] => simp at h
    | i + 1, b :: t =>
      have h2 : (b :: t)[i]? = some x := by simpa using h
      have hz : (a :: b :: t).getLast?.getD 0 = (b :: t).getLast?.getD 0 := by
        rw [List.getLast?_cons_cons]
      have hsetne : (b :: t).set i ((b :: t).getLast?.getD 0) ≠ [] := by
        intro hc
        have := congrArg List.length hc
        simp at this
      have hstep : swapRemove (a :: b :: t) (i + 1) = a :: swapRemove (b :: t) i := by
        simp only [swapRemove, hz, List.set_cons_succ]
        exact List.dropLast_cons_of_ne_nil hsetne
      rw [hstep]
      exact (List.Perm.swap a x _).trans (List.Perm.cons a (ih i h2))

theorem swapRemove_getElem?_lt {l : List Nat} {i j : Nat} (hij : j < i)
    (hi : i < l.length) :
    (swapRemove l i)[j]? = l[j]? := by
  unfold swapRemove
  rw [List.dropLast_eq_take, List.length_set,
    List.getElem?_take_of_lt (by omega : j < l.length - 1)]
  exact List.getElem?_set_ne (by omega)

/-- Shared shape lemma for a non-null handle found in the registry: the
matching stack index is the last one holding the handle, and the call
returns the bytes stored at the handle's address, swap-removes that stack
entry and frees the allocation. -/
theorem recover_found {ptr : Nat} {st : BufState} (h0 : ptr ≠ 0)
    (hm : ptr ∈ st.stack) :
    ∃ i, st.stack[i]? = some ptr ∧
      (∀ j y, i < j → st.stack[j]? = some y → y ≠ ptr) ∧
      recover_buffer ptr st =
        (some ((st.heap.lookup ptr).getD []),
          { st with
            stack := swapRemove st.stack i,
            heap := st.heap.eraseP (fun e => e.1 == ptr) }) := by
  unfold recover_buffer
  rw [if_neg h0]
  cases hpos : position (fun q => q == ptr) st.stack.reverse with
  | none =>
    exfalso
    have := position_eq_none_iff.1 hpos ptr (by simpa using hm)
    simp at this
  | some k =>
    obtain ⟨hk, x, hx, hpx, hlast⟩ := position_reverse_last hpos
    have hxp : x = ptr := by simpa using hpx
    subst hxp
    refine ⟨st.stack.length - k - 1, hx, ?_, rfl⟩
    intro j y hj hy
    have := hlast j y hj hy
    simpa using this

/-- C1 counterexample: in `ecall_init`, with the OOM Guard successfully
armed, a failing gas-pointer validation returns
`Failure FailedFunctionCall` while `restore_safety_buffer` is never
invoked — the claim that the safety margin is still restored on the
validation-failure path is false. -/
theorem validation_failure_restore_not_invoked_cex :
    (ecall_init invalidGasPtrInput).result = .Failure .FailedFunctionCall ∧
      (ecall_init invalidGasPtrInput).restoreInvoked = false := by
  decide

/-- C1 (amended): for init, handle and query, if the OOM Guard was
armed and a subsequent input-region validation fails, the entry point
returns `Failure FailedFunctionCall` without invoking
`restore_safety_buffer`; restoration is invoked exactly on the calls
where every validation passes. -/
theorem validation_failure_returns_without_restore :
    (∀ inp : CallInput, inp.armResult = none →
      (inp.gasPtrValid = false ∨ inp.envValid = false ∨ inp.msgValid = false ∨
        inp.contractValid = false ∨ inp.sigInfoValid = false) →
      (ecall_init inp).result = .Failure .FailedFunctionCall ∧
        (ecall_init inp).restoreInvoked = false) ∧
    (∀ inp : CallInput, inp.armResult = none →
      (inp.gasPtrValid = false ∨ inp.envValid = false ∨ inp.msgValid = false ∨
        inp.contractValid = false ∨ inp.sigInfoValid = false) →
      (ecall_handle inp).result = .Failure .FailedFunctionCall ∧
        (ecall_handle inp).restoreInvoked = false) ∧
    (∀ inp : QueryInput, inp.armResult = none →
      (inp.gasPtrValid = false ∨ inp.msgValid = false ∨ inp.contractValid = false) →
      (ecall_query inp).result = .Failure .FailedFunctionCall ∧
        (ecall_query inp).restoreInvoked = false) ∧
    (∀ inp : CallInput, inp.armResult = none → inp.gasPtrValid = true →
      inp.envValid = true → inp.msgValid = true → inp.contractValid = true →
      inp.sigInfoValid = true → (ecall_init inp).restoreInvoked = true) ∧
    (∀ inp : CallInput, inp.armResult = none → inp.gasPtrValid = true →
      inp.envValid = true → inp.msgValid = true → inp.contractValid = true →
      inp.sigInfoValid = true → (ecall_handle inp).restoreInvoked = true) ∧
    (∀ inp : QueryInput, inp.armResult = none → inp.gasPtrValid = true →
      inp.msgValid = true → inp.contractValid = true →
      (ecall_query inp).restoreInvoked = true) := by
  refine ⟨?_, ?_, ?_, ?_, ?_, ?_⟩
  · intro inp harm hval
    obtain ⟨gl, gb, arm, gv, ev, mv, cv, sv, ex, rr⟩ := inp
    simp only at harm
    subst harm
    cases gv <;> cases ev <;> cases mv <;> cases cv <;> cases sv <;>
      simp_all [ecall_init, result_init_success_to_initresult]
  · intro inp harm hval
    obtain ⟨gl, gb, arm, gv, ev, mv, cv, sv, ex, rr⟩ := inp
    simp only at harm
    subst harm
    cases gv <;> cases ev <;> cases mv <;> cases cv <;> cases sv <;>
      simp_all [ecall_handle, result_handle_success_to_handleresult]
  · intro inp harm hval
    obtain ⟨gl, gb, arm, gv, mv, cv, ex, rr⟩ := inp
    simp only at harm
    subst harm
    cases gv <;> cases mv <;> cases cv <;>
      simp_all [ecall_query, result_query_success_to_queryresult]
  · intro inp harm hgv hev hmv hcv hsv
    obtain ⟨gl, gb, arm, gv, ev, mv, cv, sv, ex, rr⟩ := inp
    simp only at harm hgv hev hmv hcv hsv
    subst harm; subst hgv; subst hev; subst hmv; subst hcv; subst hsv
    rcases rr with _ | err <;> rcases ex with ⟨r, g⟩ | b <;> (try cases b) <;>
      simp [ecall_init]
  · intro inp harm hgv hev hmv hcv hsv
    obtain ⟨gl, gb, arm, gv, ev, mv, cv, sv, ex, rr⟩ := inp
    simp only at harm hgv hev hmv hcv hsv
    subst harm; subst hgv; subst hev; subst hmv; subst hcv; subst hsv
    rcases rr with _ | err <;> rcases ex with ⟨r, g⟩ | b <;> (try cases b) <;>
      simp [ecall_handle]
  · intro inp harm hgv hmv hcv
    obtain ⟨gl, gb, arm, gv, mv, cv, ex, rr⟩ := inp
    simp only at harm hgv hmv hcv
    subst harm; subst hgv; subst hmv; subst hcv
    rcases rr with _ | err <;> rcases ex with ⟨r, g⟩ | b <;> (try cases b) <;>
      simp [ecall_query]

/-- C1 (amended) witness: concrete handle call with an invalid message
region returns `Failure FailedFunctionCall` without restoring the
safety margin. -/
theorem validation_failure_returns_without_restore_witness :
    (ecall_handle invalidMsgInput).result = .Failure .FailedFunctionCall ∧
      (ecall_handle invalidMsgInput).restoreInvoked = false :=
  validation_failure_returns_without_restore.2.1 invalidMsgInput rfl
    (Or.inr (Or.inr (Or.inl rfl)))

/-- C2 counterexample: when the OOM Guard cannot be armed,
`ecall_init` returns `Failure OutOfMemory` while the host gas location
keeps its pre-call value instead of the penalty `gas_limit / 2` — the
claim that every `OutOfMemory` failure sets the penalty is false. -/
theorem oom_failure_gas_penalty_cex :
    (ecall_init armFailInput).result = .Failure .OutOfMemory ∧
      (ecall_init armFailInput).gasFinal = 7 ∧
      armFailInput.gasLimit / 2 = 5 := by
  decide

/-- C2 (amended): for init, handle and query, the gas-used location is
set to the penalty `gas_limit / 2` when the `Failure OutOfMemory` arises
from the fault-contained execution aborting with the OOM flag set and
restoration succeeding; when arming fails the gas location keeps its
pre-call value, and when restoration fails the call returns the
restoration error with the gas location holding whatever the execution
step left there — the value the closure wrote if it completed, the
pre-call value if it aborted — never the penalty write of this path. -/
theorem oom_flagged_abort_sets_gas_penalty :
    (∀ inp : CallInput, inp.armResult = none → inp.gasPtrValid = true →
      inp.envValid = true → inp.msgValid = true → inp.contractValid = true →
      inp.sigInfoValid = true → inp.execOutcome = .aborts true →
      inp.restoreResult = none →
      (ecall_init inp).result = .Failure .OutOfMemory ∧
        (ecall_init inp).gasFinal = inp.gasLimit / 2) ∧
    (∀ inp : CallInput, inp.armResult = none → inp.gasPtrValid = true →
      inp.envValid = true → inp.msgValid = true → inp.contractValid = true →
      inp.sigInfoValid = true → inp.execOutcome = .aborts true →
      inp.restoreResult = none →
      (ecall_handle inp).result = .Failure .OutOfMemory ∧
        (ecall_handle inp).gasFinal = inp.gasLimit / 2) ∧
    (∀ inp : QueryInput, inp.armResult = none → inp.gasPtrValid = true →
      inp.msgValid = true → inp.contractValid = true →
      inp.execOutcome = .aborts true → inp.restoreResult = none →
      (ecall_query inp).result = .Failure .OutOfMemory ∧
        (ecall_query inp).gasFinal = inp.gasLimit / 2) ∧
    (∀ inp : CallInput, ∀ err, inp.armResult = some err →
      (ecall_init inp).gasFinal = inp.gasBefore) ∧
    (∀ inp : CallInput, ∀ err, inp.armResult = some err →
      (ecall_handle inp).gasFinal = inp.gasBefore) ∧
    (∀ inp : QueryInput, ∀ err, inp.armResult = some err →
      (ecall_query inp).gasFinal = inp.gasBefore) ∧
    (∀ inp : CallInput, ∀ err, inp.armResult = none → inp.gasPtrValid = true →
      inp.envValid = true → inp.msgValid = true → inp.contractValid = true →
      inp.sigInfoValid = true → inp.restoreResult = some err →
      (ecall_init inp).result = .Failure err ∧
        (ecall_init inp).gasFinal =
          (match inp.execOutcome with
            | .completes _ g => g
            | .aborts _ => inp.gasBefore)) ∧
    (∀ inp : CallInput, ∀ err, inp.armResult = none → inp.gasPtrValid = true →
      inp.envValid = true → inp.msgValid = true → inp.contractValid = true →
      inp.sigInfoValid = true → inp.restoreResult = some err →
      (ecall_handle inp).result = .Failure err ∧
        (ecall_handle inp).gasFinal =
          (match inp.execOutcome with
            | .completes _ g => g
            | .aborts _ => inp.gasBefore)) ∧
    (∀ inp : QueryInput, ∀ err, inp.armResult = none → inp.gasPtrValid = true →
      inp.msgValid = true → inp.contractValid = true →
      inp.restoreResult = some err →
      (ecall_query inp).result = .Failure err ∧
        (ecall_query inp).gasFinal =
          (match inp.execOutcome with
            | .completes _ g => g
            | .aborts _ => inp.gasBefore)) := by
  refine ⟨?_, ?_, ?_, ?_, ?_, ?_, ?_, ?_, ?_⟩
  · intro inp harm hgv hev hmv hcv hsv hex hrr
    obtain ⟨gl, gb, arm, gv, ev, mv, cv, sv, ex, rr⟩ := inp
    simp only at harm hgv hev hmv hcv hsv hex hrr
    subst harm; subst hgv; subst hev; subst hmv; subst hcv; subst hsv
    subst hex; subst hrr
    simp [ecall_init]
  · intro inp harm hgv hev hmv hcv hsv hex hrr
    obtain ⟨gl, gb, arm, gv, ev, mv, cv, sv, ex, rr⟩ := inp
    simp only at harm hgv hev hmv hcv hsv hex hrr
    subst harm; subst hgv; subst hev; subst hmv; subst hcv; subst hsv
    subst hex; subst hrr
    simp [ecall_handle]
  · intro inp harm hgv hmv hcv hex hrr
    obtain ⟨gl, gb, arm, gv, mv, cv, ex, rr⟩ := inp
    simp only at harm hgv hmv hcv hex hrr
    subst harm; subst hgv; subst hmv; subst hcv; subst hex; subst hrr
    simp [ecall_query]
  · intro inp err harm
    obtain ⟨gl, gb, arm, gv, ev, mv, cv, sv, ex, rr⟩ := inp
    simp only at harm
    subst harm
    simp [ecall_init]
  · intro inp err harm
    obtain ⟨gl, gb, arm, gv, ev, mv, cv, sv, ex, rr⟩ := inp
    simp only at harm
    subst harm
    simp [ecall_handle]
  · intro inp err harm
    obtain ⟨gl, gb, arm, gv, mv, cv, ex, rr⟩ := inp
    simp only at harm
    subst harm
    simp [ecall_query]
  · intro inp err harm hgv hev hmv hcv hsv hrr
    obtain ⟨gl, gb, arm, gv, ev, mv, cv, sv, ex, rr⟩ := inp
    simp only at harm hgv hev hmv hcv hsv hrr
    subst harm; subst hgv; subst hev; subst hmv; subst hcv; subst hsv
    subst hrr
    cases ex <;> simp [ecall_init]
  · intro inp err harm hgv hev hmv hcv hsv hrr
    obtain ⟨gl, gb, arm, gv, ev, mv, cv, sv, ex, rr⟩ := inp
    simp only at harm hgv hev hmv hcv hsv hrr
    subst harm; subst hgv; subst hev; subst hmv; subst hcv; subst hsv
    subst hrr
    cases ex <;> simp [ecall_handle]
  · intro inp err harm hgv hmv hcv hrr
    obtain ⟨gl, gb, arm, gv, mv, cv, ex, rr⟩ := inp
    simp only at harm hgv hmv hcv hrr
    subst harm; subst hgv; subst hmv; subst hcv; subst hrr
    cases ex <;> simp [ecall_query]

/-- C2 (amended) witness: concrete query whose execution step aborts
with the OOM flag set and whose restoration succeeds returns
`Failure OutOfMemory` with the gas location set to the penalty. -/
theorem oom_flagged_abort_sets_gas_penalty_witness :
    (ecall_query oomAbortQueryInput).result = .Failure .OutOfMemory ∧
      (ecall_query oomAbortQueryInput).gasFinal = oomAbortQueryInput.gasLimit / 2 :=
  oom_flagged_abort_sets_gas_penalty.2.2.1 oomAbortQueryInput rfl rfl rfl rfl rfl rfl

/-- C3 counterexample: a call whose execution step aborts but whose
`restore_safety_buffer` then fails leaves the gas location at its
pre-call value `7` instead of `gas_limit / 2 = 500` — the claim that a
faulted call always writes exactly the penalty is false. -/
theorem abort_gas_penalty_cex :
    abortRestoreFailInput.execOutcome = .aborts false ∧
      (ecall_init abortRestoreFailInput).gasFinal = 7 ∧
      abortRestoreFailInput.gasLimit / 2 = 500 := by
  decide

/-- C3 (amended): for init, handle and query, if the fault-contained
execution step aborts and the safety-margin restoration succeeds, the
gas location is set to exactly `gas_limit / 2`, regardless of the gas
value before the call and of the OOM flag; if restoration fails the gas
location keeps its pre-call value. -/
theorem abort_with_restore_ok_sets_gas_penalty :
    (∀ inp : CallInput, ∀ b, inp.armResult = none → inp.gasPtrValid = true →
      inp.envValid = true → inp.msgValid = true → inp.contractValid = true →
      inp.sigInfoValid = true → inp.execOutcome = .aborts b →
      inp.restoreResult = none →
      (ecall_init inp).gasFinal = inp.gasLimit / 2) ∧
    (∀ inp : CallInput, ∀ b, inp.armResult = none → inp.gasPtrValid = true →
      inp.envValid = true → inp.msgValid = true → inp.contractValid = true →
      inp.sigInfoValid = true → inp.execOutcome = .aborts b →
      inp.restoreResult = none →
      (ecall_handle inp).gasFinal = inp.gasLimit / 2) ∧
    (∀ inp : QueryInput, ∀ b, inp.armResult = none → inp.gasPtrValid = true →
      inp.msgValid = true → inp.contractValid = true →
      inp.execOutcome = .aborts b → inp.restoreResult = none →
      (ecall_query inp).gasFinal = inp.gasLimit / 2) ∧
    (∀ inp : CallInput, ∀ b err, inp.armResult = none → inp.gasPtrValid = true →
      inp.envValid = true → inp.msgValid = true → inp.contractValid = true →
      inp.sigInfoValid = true → inp.execOutcome = .aborts b →
      inp.restoreResult = some err →
      (ecall_init inp).gasFinal = inp.gasBefore) ∧
    (∀ inp : CallInput, ∀ b err, inp.armResult = none → inp.gasPtrValid = true →
      inp.envValid = true → inp.msgValid = true → inp.contractValid = true →
      inp.sigInfoValid = true → inp.execOutcome = .aborts b →
      inp.restoreResult = some err →
      (ecall_handle inp).gasFinal = inp.gasBefore) ∧
    (∀ inp : QueryInput, ∀ b err, inp.armResult = none → inp.gasPtrValid = true →
      inp.msgValid = true → inp.contractValid = true →
      inp.execOutcome = .aborts b → inp.restoreResult = some err →
      (ecall_query inp).gasFinal = inp.gasBefore) := by
  refine ⟨?_, ?_, ?_, ?_, ?_, ?_⟩
  · intro inp b harm hgv hev hmv hcv hsv hex hrr
    obtain ⟨gl, gb, arm, gv, ev, mv, cv, sv, ex, rr⟩ := inp
    simp only at harm hgv hev hmv hcv hsv hex hrr
    subst harm; subst hgv; subst hev; subst hmv; subst hcv; subst hsv
    subst hex; subst hrr
    cases b <;> simp [ecall_init]
  · intro inp b harm hgv hev hmv hcv hsv hex hrr
    obtain ⟨gl, gb, arm, gv, ev, mv, cv, sv, ex, rr⟩ := inp
    simp only at harm hgv hev hmv hcv hsv hex hrr
    subst harm; subst hgv; subst hev; subst hmv; subst hcv; subst hsv
    subst hex; subst hrr
    cases b <;> simp [ecall_handle]
  · intro inp b harm hgv hmv hcv hex hrr
    obtain ⟨gl, gb, arm, gv, mv, cv, ex, rr⟩ := inp
    simp only at harm hgv hmv hcv hex hrr
    subst harm; subst hgv; subst hmv; subst hcv; subst hex; subst hrr
    cases b <;> simp [ecall_query]
  · intro inp b err harm hgv hev hmv hcv hsv hex hrr
    obtain ⟨gl, gb, arm, gv, ev, mv, cv, sv, ex, rr⟩ := inp
    simp only at harm hgv hev hmv hcv hsv hex hrr
    subst harm; subst hgv; subst hev; subst hmv; subst hcv; subst hsv
    subst hex; subst hrr
    simp [ecall_init]
  · intro inp b err harm hgv hev hmv hcv hsv hex hrr
    obtain ⟨gl, gb, arm, gv, ev, mv, cv, sv, ex, rr⟩ := inp
    simp only at harm hgv hev hmv hcv hsv hex hrr
    subst harm; subst hgv; subst hev; subst hmv; subst hcv; subst hsv
    subst hex; subst hrr
    simp [ecall_handle]
  · intro inp b err harm hgv hmv hcv hex hrr
    obtain ⟨gl, gb, arm, gv, mv, cv, ex, rr⟩ := inp
    simp only at harm hgv hmv hcv hex hrr
    subst harm; subst hgv; subst hmv; subst hcv; subst hex; subst hrr
    simp [ecall_query]

/-- C3 (amended) witness: concrete init call whose execution step
aborts with the OOM flag set and whose restoration succeeds has its gas
location set to the penalty `1000 / 2`. -/
theorem abort_with_restore_ok_sets_gas_penalty_witness :
    (ecall_init oomAbortInput).gasFinal = oomAbortInput.gasLimit / 2 :=
  abort_with_restore_ok_sets_gas_penalty.1 oomAbortInput true rfl rfl rfl rfl
    rfl rfl rfl rfl

/-- C4: for init, handle and query, if the OOM Guard was armed and any
input-region validation fails, the call returns
`Failure FailedFunctionCall` and the fault-contained execution step —
hence the external interpreter — is never entered. -/
theorem validation_failure_short_circuits :
    (∀ inp : CallInput, inp.armResult = none →
      (inp.gasPtrValid = false ∨ inp.envValid = false ∨ inp.msgValid = false ∨
        inp.contractValid = false ∨ inp.sigInfoValid = false) →
      (ecall_init inp).result = .Failure .FailedFunctionCall ∧
        (ecall_init inp).interpInvoked = false) ∧
    (∀ inp : CallInput, inp.armResult = none →
      (inp.gasPtrValid = false ∨ inp.envValid = false ∨ inp.msgValid = false ∨
        inp.contractValid = false ∨ inp.sigInfoValid = false) →
      (ecall_handle inp).result = .Failure .FailedFunctionCall ∧
        (ecall_handle inp).interpInvoked = false) ∧
    (∀ inp : QueryInput, inp.armResult = none →
      (inp.gasPtrValid = false ∨ inp.msgValid = false ∨ inp.contractValid = false) →
      (ecall_query inp).result = .Failure .FailedFunctionCall ∧
        (ecall_query inp).interpInvoked = false) := by
  refine ⟨?_, ?_, ?_⟩
  · intro inp harm hval
    obtain ⟨gl, gb, arm, gv, ev, mv, cv, sv, ex, rr⟩ := inp
    simp only at harm
    subst harm
    cases gv <;> cases ev <;> cases mv <;> cases cv <;> cases sv <;>
      simp_all [ecall_init, result_init_success_to_initresult]
  · intro inp harm hval
    obtain ⟨gl, gb, arm, gv, ev, mv, cv, sv, ex, rr⟩ := inp
    simp only at harm
    subst harm
    cases gv <;> cases ev <;> cases mv <;> cases cv <;> cases sv <;>
      simp_all [ecall_handle, result_handle_success_to_handleresult]
  · intro inp harm hval
    obtain ⟨gl, gb, arm, gv, mv, cv, ex, rr⟩ := inp
    simp only at harm
    subst harm
    cases gv <;> cases mv <;> cases cv <;>
      simp_all [ecall_query, result_query_success_to_queryresult]

/-- C4 witness: the concrete handle call with a message region whose
validation fails returns `Failure FailedFunctionCall` with the
interpreter never invoked. -/
theorem validation_failure_short_circuits_witness :
    (ecall_handle invalidMsgInput).result = .Failure .FailedFunctionCall ∧
      (ecall_handle invalidMsgInput).interpInvoked = false :=
  validation_failure_short_circuits.2.1 invalidMsgInput rfl
    (Or.inr (Or.inr (Or.inl rfl)))

/-- C8: for init, handle and query, if every validation passed and
`restore_safety_buffer` fails at the end of the call, the call returns
`Failure` with the restoration error, whatever the execution step
computed — in particular a computed `Success` is overridden. -/
theorem restore_failure_overrides_result :
    (∀ inp : CallInput, ∀ err, inp.armResult = none → inp.gasPtrValid = true →
      inp.envValid = true → inp.msgValid = true → inp.contractValid = true →
      inp.sigInfoValid = true → inp.restoreResult = some err →
      (ecall_init inp).result = .Failure err) ∧
    (∀ inp : CallInput, ∀ err, inp.armResult = none → inp.gasPtrValid = true →
      inp.envValid = true → inp.msgValid = true → inp.contractValid = true →
      inp.sigInfoValid = true → inp.restoreResult = some err →
      (ecall_handle inp).result = .Failure err) ∧
    (∀ inp : QueryInput, ∀ err, inp.armResult = none → inp.gasPtrValid = true →
      inp.msgValid = true → inp.contractValid = true →
      inp.restoreResult = some err →
      (ecall_query inp).result = .Failure err) := by
  refine ⟨?_, ?_, ?_⟩
  · intro inp err harm hgv hev hmv hcv hsv hrr
    obtain ⟨gl, gb, arm, gv, ev, mv, cv, sv, ex, rr⟩ := inp
    simp only at harm hgv hev hmv hcv hsv hrr
    subst harm; subst hgv; subst hev; subst hmv; subst hcv; subst hsv
    subst hrr
    simp [ecall_init]
  · intro inp err harm hgv hev hmv hcv hsv hrr
    obtain ⟨gl, gb, arm, gv, ev, mv, cv, sv, ex, rr⟩ := inp
    simp only at harm hgv hev hmv hcv hsv hrr
    subst harm; subst hgv; subst hev; subst hmv; subst hcv; subst hsv
    subst hrr
    simp [ecall_handle]
  · intro inp err harm hgv hmv hcv hrr
    obtain ⟨gl, gb, arm, gv, mv, cv, ex, rr⟩ := inp
    simp only at harm hgv hmv hcv hrr
    subst harm; subst hgv; subst hmv; subst hcv; subst hrr
    simp [ecall_query]

/-- C8 witness: a concrete init call whose interpreter outcome is a
success but whose restoration fails with `OutOfMemory` is reported as
`Failure OutOfMemory`. -/
theorem restore_failure_overrides_result_witness :
    (ecall_init successRestoreFailInput).result = .Failure .OutOfMemory :=
  restore_failure_overrides_result.1 successRestoreFailInput .OutOfMemory rfl
    rfl rfl rfl rfl rfl rfl

/-- C5: recovering the handle returned by a successful `ecall_allocate`
(arming, validation, the copy and the restoration all succeed, starting
from any registry state whose next pointer is non-null) yields exactly
the original bytes, for every byte sequence including the empty one. -/
theorem allocate_recover_roundtrip :
    ∀ (inp : AllocInput) (bytes : List Nat) (st : BufState),
      inp.armResult = none → inp.srcValid = true → inp.allocAborts = false →
      inp.restoreResult = none → st.nextPtr ≠ 0 →
      (recover_buffer (ecall_allocate inp bytes st).1
        (ecall_allocate inp bytes st).2).1 = some bytes := by
  intro inp bytes st harm hsv hab hrr hnp
  obtain ⟨arm, sv, ab, rr⟩ := inp
  simp only at harm hsv hab hrr
  subst harm; subst hsv; subst hab; subst hrr
  obtain ⟨stk, hp, np⟩ := st
  simp only at hnp
  simp [ecall_allocate, recover_buffer, hnp, position, List.reverse_append,
    List.lookup]

/-- C5 witness: allocating the empty byte sequence in the empty registry
and recovering its handle yields the empty byte sequence. -/
theorem allocate_recover_roundtrip_witness :
    (recover_buffer (ecall_allocate allocOkInput [] emptyBufState).1
      (ecall_allocate allocOkInput [] emptyBufState).2).1 = some [] :=
  allocate_recover_roundtrip allocOkInput [] emptyBufState rfl rfl rfl rfl
    (by decide)

/-- C6: `recover_buffer` on a non-null absent handle returns `none` and
leaves the state untouched; on a handle present (exactly once, the
invariant the gateway operations maintain) it removes the handle from
the stack and returns the bytes stored at it, so a second recover of the
same handle returns `none`. -/
theorem recover_lookup_semantics :
    ∀ (ptr : Nat) (st : BufState), ptr ≠ 0 →
      (ptr ∉ st.stack → recover_buffer ptr st = (none, st)) ∧
      (st.stack.count ptr = 1 → ∀ bs, st.heap.lookup ptr = some bs →
        (recover_buffer ptr st).1 = some bs ∧
        ptr ∉ (recover_buffer ptr st).2.stack ∧
        (recover_buffer ptr (recover_buffer ptr st).2).1 = none) := by
  intro ptr st h0
  constructor
  · intro habs
    unfold recover_buffer
    rw [if_neg h0]
    have hnone : position (fun q => q == ptr) st.stack.reverse = none := by
      rw [position_eq_none_iff]
      intro x hx
      have hx2 : x ∈ st.stack := by simpa using hx
      simp only [beq_eq_false_iff_ne, ne_eq]
      intro hxeq
      exact habs (hxeq ▸ hx2)
    rw [hnone]
  · intro hcount bs hbs
    have hmem : ptr ∈ st.stack := by
      refine List.count_pos_iff.1 ?_
      omega
    obtain ⟨i, hi, hlast, heq⟩ := recover_found h0 hmem
    have hperm := swapRemove_perm st.stack i ptr hi
    have hcount2 : (swapRemove st.stack i).count ptr = 0 := by
      have hc := hperm.count_eq ptr
      rw [List.count_cons_self] at hc
      omega
    have hnotmem : ptr ∉ swapRemove st.stack i :=
      List.not_mem_of_count_eq_zero hcount2
    refine ⟨by rw [heq]; simp [hbs], by rw [heq]; simpa using hnotmem, ?_⟩
    rw [heq]
    unfold recover_buffer
    rw [if_neg h0]
    have hnone : position (fun q => q == ptr)
        (({ st with
            stack := swapRemove st.stack i,
            heap := st.heap.eraseP (fun e => e.1 == ptr) } : BufState)).stack.reverse =
          none := by
      rw [position_eq_none_iff]
      intro x hx
      have hx2 : x ∈ swapRemove st.stack i := by simpa using hx
      simp only [beq_eq_false_iff_ne, ne_eq]
      intro hxeq
      exact hnotmem (hxeq ▸ hx2)
    rw [hnone]

/-- C6 witness: in the three-buffer registry, recovering handle `5`
yields its bytes, removes it, and a second recover of `5` yields
nothing. -/
theorem recover_lookup_semantics_witness :
    (recover_buffer 5 sampleBufState).1 = some [2] ∧
      5 ∉ (recover_buffer 5 sampleBufState).2.stack ∧
      (recover_buffer 5 (recover_buffer 5 sampleBufState).2).1 = none :=
  (recover_lookup_semantics 5 sampleBufState (by decide)).2 (by decide) [2]
    (by decide)

/-- C7 counterexample: an allocation whose arming and validation both
succeed but whose final restoration fails returns the default handle
even though the copy was made and its handle registered — the claim
that all non-(arm/validation) failures end in a registered handle being
returned is false. -/
theorem allocate_restore_failure_cex :
    allocRestoreFailInput.armResult = none ∧
      allocRestoreFailInput.srcValid = true ∧
      (ecall_allocate allocRestoreFailInput [1] emptyBufState).1 = 0 ∧
      (ecall_allocate allocRestoreFailInput [1] emptyBufState).2.stack = [1] := by
  decide

/-- C7 (amended): `ecall_allocate` returns the default handle with no
registration when arming or source validation fails, and also when the
fault-contained copy aborts; when the copy completes it registers the
fresh handle, and returns it if restoration succeeds — if restoration
fails the default handle is returned although the buffer stays
registered. -/
theorem allocate_outcome_characterization :
    ∀ (inp : AllocInput) (bytes : List Nat) (st : BufState),
      ((∃ err, inp.armResult = some err) ∨ inp.srcValid = false →
        ecall_allocate inp bytes st = (0, st)) ∧
      (inp.armResult = none → inp.srcValid = true → inp.allocAborts = true →
        ecall_allocate inp bytes st = (0, st)) ∧
      (inp.armResult = none → inp.srcValid = true → inp.allocAborts = false →
        inp.restoreResult = none →
        ecall_allocate inp bytes st =
          (st.nextPtr,
            ⟨st.stack ++ [st.nextPtr], (st.nextPtr, bytes) :: st.heap,
              st.nextPtr + 1⟩)) ∧
      (∀ err, inp.armResult = none → inp.srcValid = true →
        inp.allocAborts = false → inp.restoreResult = some err →
        ecall_allocate inp bytes st =
          (0, ⟨st.stack ++ [st.nextPtr], (st.nextPtr, bytes) :: st.heap,
            st.nextPtr + 1⟩)) := by
  intro inp bytes st
  obtain ⟨arm, sv, ab, rr⟩ := inp
  refine ⟨?_, ?_, ?_, ?_⟩
  · intro h
    rcases h with ⟨err, harm⟩ | hsv
    · simp only at harm
      subst harm
      simp [ecall_allocate]
    · simp only at hsv
      subst hsv
      cases arm <;> simp [ecall_allocate]
  · intro harm hsv hab
    simp only at harm hsv hab
    subst harm; subst hsv; subst hab
    cases rr <;> simp [ecall_allocate]
  · intro harm hsv hab hrr
    simp only at harm hsv hab hrr
    subst harm; subst hsv; subst hab; subst hrr
    simp [ecall_allocate]
  · intro err harm hsv hab hrr
    simp only at harm hsv hab hrr
    subst harm; subst hsv; subst hab; subst hrr
    simp [ecall_allocate]

/-- C7 (amended) witness: a fully successful concrete allocation in the
empty registry returns the fresh handle `1` and registers it. -/
theorem allocate_outcome_characterization_witness :
    ecall_allocate allocOkInput [9, 8] emptyBufState =
      (emptyBufState.nextPtr,
        ⟨emptyBufState.stack ++ [emptyBufState.nextPtr],
          (emptyBufState.nextPtr, [9, 8]) :: emptyBufState.heap,
          emptyBufState.nextPtr + 1⟩) :=
  (allocate_outcome_characterization allocOkInput [9, 8] emptyBufState).2.2.1
    rfl rfl rfl rfl

/-- C9: recovering the default (null) handle returns `none` and leaves
the registry state untouched, whatever that state is. -/
theorem recover_null_handle :
    ∀ st : BufState, recover_buffer 0 st = (none, st) := by
  intro st
  simp [recover_buffer]

/-- C10: recovering a non-null handle that occurs in the stack removes
exactly one entry: the entry at the last stack index holding that
pointer (no later index holds it), the stack as a multiset loses exactly
one occurrence of the pointer and gains nothing, and every entry below
the removed index keeps its position. -/
theorem recover_removes_last_match :
    ∀ (ptr : Nat) (st : BufState), ptr ≠ 0 → ptr ∈ st.stack →
      ∃ i : Nat, st.stack[i]? = some ptr ∧
        (∀ j y : Nat, i < j → st.stack[j]? = some y → y ≠ ptr) ∧
        ptr ::ₘ ((recover_buffer ptr st).2.stack : Multiset Nat) =
          (st.stack : Multiset Nat) ∧
        ∀ j : Nat, j < i → (recover_buffer ptr st).2.stack[j]? = st.stack[j]? := by
  intro ptr st h0 hmem
  obtain ⟨i, hi, hlast, heq⟩ := recover_found h0 hmem
  have hlen : i < st.stack.length := (List.getElem?_eq_some_iff.1 hi).1
  have hperm := swapRemove_perm st.stack i ptr hi
  refine ⟨i, hi, hlast, ?_, ?_⟩
  · rw [heq]
    show ptr ::ₘ ((swapRemove st.stack i : List Nat) : Multiset Nat) =
      (st.stack : Multiset Nat)
    rw [Multiset.cons_coe]
    exact Multiset.coe_eq_coe.2 hperm
  · intro j hj
    rw [heq]
    exact swapRemove_getElem?_lt hj hlen

/-- C10 witness: in the registry whose stack is `[3, 5, 3, 7]`,
recovering handle `3` removes the occurrence at index 2 (the last one)
while the entries at indices 0 and 1 keep their positions and the
multiset loses exactly one `3`. -/
theorem recover_removes_last_match_witness :
    ∃ i : Nat, dupBufState.stack[i]? = some 3 ∧
      (∀ j y : Nat, i < j → dupBufState.stack[j]? = some y → y ≠ 3) ∧
      3 ::ₘ ((recover_buffer 3 dupBufState).2.stack : Multiset Nat) =
        (dupBufState.stack : Multiset Nat) ∧
      ∀ j : Nat, j < i → (recover_buffer 3 dupBufState).2.stack[j]? =
        dupBufState.stack[j]? :=
  recover_removes_last_match 3 dupBufState (by decide) (by decide)

end Gateway
